import Mathlib

/-!
Shallow embedding of the `faunadb-rust` value-expression module
(`src/expr.rs`): the fourteen-variant `Expr` union, the conversion
`From<serde_json::Value> for Expr`, and the `Serialize` implementation
producing the extended-JSON wire format.

Conventions of the embedding:
* Bytes (`u8`) are `Nat` reduced mod 256 where their numeric value is used.
* `f64`/`f32` payloads are carried opaquely as Lean `Float`; no claim
  depends on floating-point arithmetic or formatting.
* `serde_json::Value` and `serde_json::Number` are embedded with their
  documented representation: a number is a non-negative 64-bit integer,
  a negative 64-bit integer, or a finite double.
* The `unimplemented!()` panic in `From<Value>` is embedded as the
  distinguished result `Converted.panicked`.
* serde serialization is embedded twice, at two levels of abstraction,
  both translated from the same `match` in `impl Serialize for Expr`:
  a tree-level encoder `encodeExpr` (the value produced through a
  `serde_json`-style serializer) and a token-stream encoder `events`
  plus a fallible sink runner `runWriter` (the streaming `Serializer`
  API, where every primitive call may fail).
-/

/-- Number models `serde_json::Number`: a JSON number is stored as a
non-negative integer (`u64`), a negative integer (`i64`, always `< 0`
in serde_json), or a finite double. -/
inductive Number where
  | posInt (n : Nat)
  | negInt (i : Int)
  | float (f : Float)
deriving Repr

/-- Largest value of a signed 64-bit integer, `i64::MAX`. -/
def i64Max : Nat := 9223372036854775807

/-- Number.isI64 models `serde_json::Number::is_i64`: true when the stored
number is an integer between `i64::MIN` and `i64::MAX`. A `PosInt` is an
`i64` iff it does not exceed `i64::MAX`; a `NegInt` always is; a float
never is. -/
def Number.isI64 : Number → Bool
  | .posInt n => decide (n ≤ i64Max)
  | .negInt _ => true
  | .float _ => false

/-- Number.isU64 models `serde_json::Number::is_u64`: true exactly for the
non-negative integer representation. -/
def Number.isU64 : Number → Bool
  | .posInt _ => true
  | .negInt _ => false
  | .float _ => false

/-- Number.asI64 models `Number::as_i64().unwrap()` on the guarded paths;
the float case is unreachable under the `is_i64` guard. -/
def Number.asI64 : Number → Int
  | .posInt n => (n : Int)
  | .negInt i => i
  | .float _ => 0

/-- Number.asU64 models `Number::as_u64().unwrap()` on the guarded paths. -/
def Number.asU64 : Number → Nat
  | .posInt n => n
  | .negInt _ => 0
  | .float _ => 0

/-- Number.asF64 models `Number::as_f64().unwrap()`; on the fallback branch
of the conversion only the float case is reachable. -/
def Number.asF64 : Number → Float
  | .posInt n => Float.ofNat n
  | .negInt i => Float.ofInt i
  | .float f => f

/-- Value models `serde_json::Value`: the generic JSON data model, used
both as the input of the `From<Value>` conversion and as the output tree
of a `serde_json`-style serializer. -/
inductive Value where
  | null
  | bool (b : Bool)
  | number (n : Number)
  | str (s : String)
  | arr (xs : List Value)
  | obj (kvs : List (String × Value))
deriving Repr

/-- Value.isScalarInput is true for the generic-JSON shapes on which the
`From<Value>` conversion is defined (null, boolean, number, string). -/
def Value.isScalarInput : Value → Bool
  | .null | .bool _ | .number _ | .str _ => true
  | .arr _ | .obj _ => false

/-- padNat pads the decimal rendering of `n` with leading zeros to at
least `k` digits, as chrono's zero-padded numeric format specifiers do. -/
def padNat (k : Nat) (n : Nat) : String :=
  let s := toString n
  String.mk (List.replicate (k - s.length) '0') ++ s

/-- padYear renders a (possibly negative) year zero-padded to at least
4 digits, as chrono's `%Y` does. -/
def padYear (y : Int) : String :=
  if y < 0 then "-" ++ padNat 4 (-y).toNat else padNat 4 y.toNat

/-- Date models `chrono::NaiveDate` as its calendar fields. -/
structure Date where
  year : Int
  month : Nat
  day : Nat
deriving Repr

/-- Date.format is `d.format("%Y-%m-%d").to_string()`: 4-digit zero-padded
year, 2-digit zero-padded month and day, joined by hyphens. -/
def Date.format (d : Date) : String :=
  padYear d.year ++ "-" ++ padNat 2 d.month ++ "-" ++ padNat 2 d.day

/-- Timestamp models `chrono::DateTime<Utc>` as its calendar and clock
fields plus nanoseconds. -/
structure Timestamp where
  year : Int
  month : Nat
  day : Nat
  hour : Nat
  minute : Nat
  second : Nat
  nanos : Nat
deriving Repr

/-- fracSeconds renders chrono's `%.f`: nothing when the nanosecond field
is zero, otherwise a dot followed by 3, 6 or 9 digits, the least that
represent the field exactly. -/
def fracSeconds (n : Nat) : String :=
  if n = 0 then ""
  else if n % 1000000 = 0 then "." ++ padNat 3 (n / 1000000)
  else if n % 1000 = 0 then "." ++ padNat 6 (n / 1000)
  else "." ++ padNat 9 n

/-- Timestamp.toRfc3339 is chrono's `DateTime<Utc>::to_rfc3339`: the
RFC3339 rendering `%Y-%m-%dT%H:%M:%S%.f%:z`, where the UTC offset prints
as the explicit `+00:00`. -/
def Timestamp.toRfc3339 (t : Timestamp) : String :=
  padYear t.year ++ "-" ++ padNat 2 t.month ++ "-" ++ padNat 2 t.day ++ "T" ++
  padNat 2 t.hour ++ ":" ++ padNat 2 t.minute ++ ":" ++ padNat 2 t.second ++
  fracSeconds t.nanos ++ "+00:00"

/-- Ref. Modelled from the spec: `reference.rs` is not under `src/`; per
the spec a `Ref` is a name plus an optional parent `Ref`, and named
constructors exist for the reserved collection kinds. -/
inductive Ref where
  | mk (name : String) (parent : Option Ref)
deriving Repr

/-- Ref.new models `Ref::new(name, parent)`: a named reference under a
parent reference. -/
def Ref.new (name : String) (parent : Ref) : Ref :=
  .mk name (some parent)

/-- Ref.cls models `Ref::class(name)`: a reference to a class/collection,
whose path is `classes/<name>` (per the spec's two-level path contract
and the repository's own test expectations). -/
def Ref.cls (name : String) : Ref :=
  .mk name (some (.mk "classes" none))

/-- Ref.index models `Ref::index(name)`: a reference to an index, whose
path is `indexes/<name>`. -/
def Ref.index (name : String) : Ref :=
  .mk name (some (.mk "indexes" none))

/-- Ref.path joins the names of the parent chain with `/` from the
outermost parent to the leaf. Modelled from the spec: "path rendering
concatenates names from root to leaf with `/`". -/
def Ref.path : Ref → String
  | .mk n none => n
  | .mk n (some p) => Ref.path p ++ "/" ++ n

/-- base64Alphabet is the standard base64 alphabet used by
`base64::encode`. -/
def base64Alphabet : List Char :=
  "ABCDEFGHIJKLMNOPQRSTUVWXYZabcdefghijklmnopqrstuvwxyz0123456789+/".toList

/-- b64Char looks up a 6-bit group in the standard alphabet. -/
def b64Char (n : Nat) : Char :=
  base64Alphabet.getD n 'A'

/-- base64Encode is `base64::encode`: standard padded base64 of a byte
sequence, bytes taken mod 256. -/
def base64Encode : List Nat → String
  | [] => ""
  | [a] =>
    let a := a % 256
    String.mk [b64Char (a / 4), b64Char (a % 4 * 16)] ++ "=="
  | [a, b] =>
    let a := a % 256
    let b := b % 256
    String.mk [b64Char (a / 4), b64Char (a % 4 * 16 + b / 16),
               b64Char (b % 16 * 4)] ++ "="
  | a :: b :: c :: rest =>
    let a := a % 256
    let b := b % 256
    let c := c % 256
    String.mk [b64Char (a / 4), b64Char (a % 4 * 16 + b / 16),
               b64Char (b % 16 * 4 + c / 64), b64Char (c % 64)] ++
    base64Encode rest

/-- Expr is the fourteen-variant value union of `expr.rs`. `Object<'a>`
(from the missing `object.rs`) is embedded per the spec as an ordered
string-keyed association list; `Set<'a>` (from the missing `set.rs`) is
embedded inline as its two fields, a `match` reference and a `terms`
value; `Cow` payloads are embedded as their owned data. -/
inductive Expr where
  | string (s : String)
  | double (d : Float)
  | float (f : Float)
  | int (i : Int)
  | uint (u : Nat)
  | boolean (b : Bool)
  | null
  | object (o : List (String × Expr))
  | bytes (b : List Nat)
  | date (d : Date)
  | ref (r : Ref)
  | array (xs : List Expr)
  | set (matched : Ref) (terms : Expr)
  | timestamp (t : Timestamp)
deriving Repr

/-- Object.insert. Modelled from the spec: insertion into the ordered map
overwrites in place on a duplicate key and appends a new key at the end. -/
def Object.insert (o : List (String × Expr)) (k : String) (v : Expr) :
    List (String × Expr) :=
  if o.any (fun p => p.1 == k) then
    o.map (fun p => if p.1 == k then (k, v) else p)
  else
    o ++ [(k, v)]

/-- Object.len models `Object::len`. -/
def Object.len (o : List (String × Expr)) : Nat :=
  o.length

/-- Expr.isScalarVariant is true for the scalar variants of the union:
Null, Boolean, Int, UInt, Double, String. -/
def Expr.isScalarVariant : Expr → Bool
  | .null | .boolean _ | .int _ | .uint _ | .double _ | .string _ => true
  | _ => false

/-- Converted is the outcome of the `From<Value>` conversion:
`ok` for a constructed `Expr`, `panicked` for the `unimplemented!()`
fatal branch (an unconditional crash, not a recoverable error value). -/
inductive Converted where
  | ok (e : Expr)
  | panicked
deriving Repr

/-- exprOfValue is `impl From<Value> for Expr`: null, booleans, numbers
and strings convert (numbers by trying `is_i64`, then `is_u64`, then the
`as_f64` fallback, each through the corresponding `From` impl); the
wildcard arm for arrays and objects is `unimplemented!()`. -/
def exprOfValue : Value → Converted
  | .null => .ok .null
  | .bool b => .ok (.boolean b)
  | .number num =>
    if num.isI64 then .ok (.int num.asI64)
    else if num.isU64 then .ok (.uint num.asU64)
    else .ok (.double num.asF64)
  | .str s => .ok (.string s)
  | .arr _ => .panicked
  | .obj _ => .panicked

mutual

/-- encodeExpr is `impl Serialize for Expr` observed through a
`serde_json`-style serializer (the `Value` it produces): scalars map to
the native JSON scalar, `serialize_none` to null; Object wraps its map
under the single key "object"; Bytes, Date, Ref and Timestamp wrap their
rendered string under "@bytes", "@date", "@ref" and "@ts"; Array encodes
elementwise; Set nests "match" (the encoded Ref) and "terms" (recursively
encoded) under "@set" (the Set body per the spec, `set.rs` being absent
from `src/`). `serialize_f32` widens the `f32` to the double it carries,
and `serialize_i64`/`serialize_u64` store the exact integer. -/
def encodeExpr : Expr → Value
  | .string s => .str s
  | .double d => .number (.float d)
  | .float f => .number (.float f)
  | .int i => .number (if 0 ≤ i then .posInt i.toNat else .negInt i)
  | .uint u => .number (.posInt u)
  | .boolean b => .bool b
  | .null => .null
  | .object o => .obj [("object", .obj (encodeKvs o))]
  | .bytes b => .obj [("@bytes", .str (base64Encode b))]
  | .date d => .obj [("@date", .str d.format)]
  | .ref r => .obj [("@ref", .str r.path)]
  | .array xs => .arr (encodeList xs)
  | .set m t =>
    .obj [("@set", .obj [("match", .obj [("@ref", .str m.path)]),
                         ("terms", encodeExpr t)])]
  | .timestamp t => .obj [("@ts", .str t.toRfc3339)]

/-- encodeList encodes the elements of an Array in order. -/
def encodeList : List Expr → List Value
  | [] => []
  | x :: xs => encodeExpr x :: encodeList xs

/-- encodeKvs encodes an Object body entrywise, keeping keys in insertion
order (the Object map serialization per the spec, `object.rs` being
absent from `src/`). -/
def encodeKvs : List (String × Expr) → List (String × Value)
  | [] => []
  | (k, v) :: rest => (k, encodeExpr v) :: encodeKvs rest

end

/-- Tok is one primitive call on the streaming `Serializer` interface:
the scalar methods, map begin (with its length hint) / key / end, and
sequence begin / end. -/
inductive Tok where
  | str (s : String)
  | f64 (f : Float)
  | f32 (f : Float)
  | i64 (i : Int)
  | u64 (u : Nat)
  | bool (b : Bool)
  | null
  | mapBegin (hint : Option Nat)
  | key (k : String)
  | mapEnd
  | seqBegin (hint : Option Nat)
  | seqEnd
deriving Repr

mutual

/-- events is `impl Serialize for Expr` at the streaming level: the
sequence of primitive serializer calls each `match` arm performs,
including the length hints the source passes (`Some(obj.len())` for the
Object wrapper, `Some(1)` for Bytes/Date/Ref/Timestamp, `Some(2)` for
the Set wrapper, `Some(ary.len())` for Array). -/
def events : Expr → List Tok
  | .string s => [.str s]
  | .double d => [.f64 d]
  | .float f => [.f32 f]
  | .int i => [.i64 i]
  | .uint u => [.u64 u]
  | .boolean b => [.bool b]
  | .null => [.null]
  | .object o =>
    .mapBegin (some o.length) :: .key "object" ::
      .mapBegin (some o.length) :: (kvEvents o ++ [.mapEnd, .mapEnd])
  | .bytes b => [.mapBegin (some 1), .key "@bytes",
                 .str (base64Encode b), .mapEnd]
  | .date d => [.mapBegin (some 1), .key "@date", .str d.format, .mapEnd]
  | .ref r => [.mapBegin (some 1), .key "@ref", .str r.path, .mapEnd]
  | .array xs => .seqBegin (some xs.length) :: (listEvents xs ++ [.seqEnd])
  | .set m t =>
    .mapBegin (some 2) :: .key "@set" ::
      .mapBegin (some 2) :: .key "match" ::
        .mapBegin (some 1) :: .key "@ref" :: .str m.path :: .mapEnd ::
      .key "terms" :: (events t ++ [.mapEnd, .mapEnd])
  | .timestamp t => [.mapBegin (some 1), .key "@ts",
                     .str t.toRfc3339, .mapEnd]

/-- listEvents concatenates the serializer calls of Array elements in
order. -/
def listEvents : List Expr → List Tok
  | [] => []
  | x :: xs => events x ++ listEvents xs

/-- kvEvents serializes each Object entry as its key call followed by the
value's calls, in insertion order. -/
def kvEvents : List (String × Expr) → List Tok
  | [] => []
  | (k, v) :: rest => .key k :: (events v ++ kvEvents rest)

end

/-- runWriter feeds the token stream to a fallible sink: each call either
fails, short-circuiting with the sink's error exactly as `?` does, or
threads the sink state forward. -/
def runWriter {σ ε : Type} (w : Tok → σ → Except ε σ) :
    σ → List Tok → Except ε σ
  | s, [] => .ok s
  | s, t :: ts =>
    match w t s with
    | .error err => .error err
    | .ok s2 => runWriter w s2 ts

theorem runWriter_ok_of_total {σ ε : Type} (w : Tok → σ → Except ε σ)
    (hw : ∀ t s1, ∃ s2, w t s1 = Except.ok s2) :
    ∀ (ts : List Tok) (s : σ), ∃ s2, runWriter w s ts = Except.ok s2 := by
  intro ts
  induction ts with
  | nil => exact fun s => ⟨s, rfl⟩
  | cons t rest ih =>
    intro s
    obtain ⟨s2, hs2⟩ := hw t s
    obtain ⟨s3, hs3⟩ := ih s2
    exact ⟨s3, by simp [runWriter, hs2, hs3]⟩

theorem runWriter_error_mem {σ ε : Type} (w : Tok → σ → Except ε σ) :
    ∀ (ts : List Tok) (s : σ) (err : ε), runWriter w s ts = Except.error err →
      ∃ t s1, t ∈ ts ∧ w t s1 = Except.error err := by
  intro ts
  induction ts with
  | nil => intro s err h; simp [runWriter] at h
  | cons t rest ih =>
    intro s err h
    cases hw : w t s with
    | error e2 =>
      simp [runWriter, hw] at h
      exact ⟨t, s, List.mem_cons_self t rest, by rw [hw, h]⟩
    | ok s2 =>
      simp [runWriter, hw] at h
      obtain ⟨t2, s3, hmem, hws⟩ := ih s2 err h
      exact ⟨t2, s3, List.mem_cons_of_mem t hmem, hws⟩

theorem runWriter_congr {σ ε : Type} (w1 w2 : Tok → σ → Except ε σ)
    (h : ∀ t s, w1 t s = w2 t s) :
    ∀ (ts : List Tok) (s : σ), runWriter w1 s ts = runWriter w2 s ts := by
  intro ts
  induction ts with
  | nil => intro s; rfl
  | cons t rest ih =>
    intro s
    simp only [runWriter, h t s]
    cases w2 t s with
    | error e2 => rfl
    | ok s2 => exact ih s2

/-- accWriter is a concrete sink that never fails and appends each token
to an accumulator. -/
def accWriter : Tok → List Tok → Except Unit (List Tok) :=
  fun t s => Except.ok (s ++ [t])

/-- accWriterConcat behaves exactly like accWriter, building the
accumulator with `List.concat` instead of append. -/
def accWriterConcat : Tok → List Tok → Except Unit (List Tok) :=
  fun t s => Except.ok (s.concat t)

/-- C1: encoding Expr::Object yields a JSON object with exactly one key,
the reserved key "object", whose value is the user map with keys in
insertion order and values recursively encoded — for every Object,
including the empty map and maps whose keys collide with reserved tags. -/
theorem object_encoding_wrapped :
    (∀ o : List (String × Expr),
      encodeExpr (.object o) = .obj [("object", .obj (encodeKvs o))])
    ∧ (∀ o : List (String × Expr),
      (encodeKvs o).map Prod.fst = o.map Prod.fst)
    ∧ (∀ o : List (String × Expr),
      (encodeKvs o).map Prod.snd = o.map (fun p => encodeExpr p.snd)) := by
  refine ⟨fun o => by simp [encodeExpr], ?_, ?_⟩ <;>
  · intro o
    induction o with
    | nil => simp [encodeKvs]
    | cons p rest ih => cases p; simp [encodeKvs, ih]

/-- C2: serialization of any Expr is total — if the sink accepts every
primitive call, the encode call succeeds — and any error the encode call
returns is a value the sink itself produced on one of the emitted calls,
propagated unmodified. -/
theorem serialize_total_and_sink_errors {σ ε : Type}
    (w : Tok → σ → Except ε σ) (s : σ) (e : Expr) :
    ((∀ t s1, ∃ s2, w t s1 = Except.ok s2) →
      ∃ s2, runWriter w s (events e) = Except.ok s2)
    ∧ (∀ err, runWriter w s (events e) = Except.error err →
      ∃ t s1, t ∈ events e ∧ w t s1 = Except.error err) :=
  ⟨fun hw => runWriter_ok_of_total w hw (events e) s,
   fun err h => runWriter_error_mem w (events e) s err h⟩

/-- Witness for C2: with the never-failing accumulator sink, encoding the
Null expression succeeds. -/
theorem serialize_total_and_sink_errors_witness :
    ∃ s2, runWriter accWriter [] (events .null) = Except.ok s2 :=
  (serialize_total_and_sink_errors accWriter [] .null).1
    (fun t s1 => ⟨s1 ++ [t], rfl⟩)

/-- C3: encoding is deterministic — two runs of the encoder on the same
value tree, against sinks with the same behaviour at every call, produce
identical output. -/
theorem serialize_deterministic {σ ε : Type}
    (w1 w2 : Tok → σ → Except ε σ) (h : ∀ t s, w1 t s = w2 t s)
    (s : σ) (e : Expr) :
    runWriter w1 s (events e) = runWriter w2 s (events e) :=
  runWriter_congr w1 w2 h (events e) s

/-- Witness for C3: the append-based and concat-based accumulator sinks
behave identically, so encoding the Boolean true against either yields
the same output. -/
theorem serialize_deterministic_witness :
    runWriter accWriter [] (events (.boolean true)) =
      runWriter accWriterConcat [] (events (.boolean true)) :=
  serialize_deterministic accWriter accWriterConcat
    (fun t s => by simp [accWriter, accWriterConcat]) [] (.boolean true)

/-- C4: the generic-JSON conversion classifies numbers by trying the
signed-64-bit representation first (a non-negative integer up to
`i64::MAX`, or any negative integer, becomes Int), then the unsigned
representation (a non-negative integer above `i64::MAX` becomes UInt),
and otherwise falls back to Double (the float representation); null,
boolean and string inputs become Null, Boolean and String. -/
theorem number_classification :
    (∀ u : Nat, u < 2 ^ 64 → u ≤ i64Max →
      exprOfValue (.number (.posInt u)) = .ok (.int u))
    ∧ (∀ u : Nat, u < 2 ^ 64 → i64Max < u →
      exprOfValue (.number (.posInt u)) = .ok (.uint u))
    ∧ (∀ i : Int, exprOfValue (.number (.negInt i)) = .ok (.int i))
    ∧ (∀ f : Float, exprOfValue (.number (.float f)) = .ok (.double f))
    ∧ exprOfValue .null = .ok .null
    ∧ (∀ b, exprOfValue (.bool b) = .ok (.boolean b))
    ∧ (∀ s, exprOfValue (.str s) = .ok (.string s)) := by
  refine ⟨?_, ?_, ?_, ?_, rfl, fun b => rfl, fun s => rfl⟩
  · intro u _ hle
    simp [exprOfValue, Number.isI64, Number.asI64, hle]
  · intro u _ hgt
    simp [exprOfValue, Number.isI64, Number.isU64, Number.asU64,
          Nat.not_le.mpr hgt]
  · intro i
    simp [exprOfValue, Number.isI64, Number.asI64]
  · intro f
    simp [exprOfValue, Number.isI64, Number.isU64, Number.asF64]

/-- Witness for C4: the number 3 is in i64 range and becomes Int 3, while
2^63 exceeds `i64::MAX` and becomes UInt 2^63. -/
theorem number_classification_witness :
    exprOfValue (.number (.posInt 3)) = .ok (.int (3 : Nat))
    ∧ exprOfValue (.number (.posInt 9223372036854775808)) =
        .ok (.uint 9223372036854775808) :=
  ⟨number_classification.1 3 (by decide) (by decide),
   number_classification.2.1 9223372036854775808
     (by norm_num) (by norm_num [i64Max])⟩

/-- C5: converting a composite generic-JSON input (array or object) is
the fatal `unimplemented!()` branch — an unconditional crash, not a
recoverable error value — and under the precondition that the input is
null, boolean, number or string this fatal branch is unreachable. -/
theorem composite_conversion_fatal :
    (∀ xs, exprOfValue (.arr xs) = .panicked)
    ∧ (∀ kvs, exprOfValue (.obj kvs) = .panicked)
    ∧ (∀ v : Value, v.isScalarInput = true → exprOfValue v ≠ .panicked) := by
  refine ⟨fun xs => rfl, fun kvs => rfl, ?_⟩
  intro v hv
  cases v with
  | null => simp [exprOfValue]
  | bool b => simp [exprOfValue]
  | number n =>
    simp only [exprOfValue]
    split
    · simp
    · split <;> simp
  | str s => simp [exprOfValue]
  | arr xs => simp [Value.isScalarInput] at hv
  | obj kvs => simp [Value.isScalarInput] at hv

/-- Witness for C5: the null input is scalar and does not reach the fatal
branch. -/
theorem composite_conversion_fatal_witness :
    exprOfValue .null ≠ .panicked :=
  composite_conversion_fatal.2.2 .null rfl

/-- C6: encoding Expr::Bytes(b) yields the JSON object with the single
reserved key "@bytes" holding the standard padded base64 of b, and the
byte sequence [0x1, 0x2, 0x3, 0x4] renders as "AQIDBA==". -/
theorem bytes_encoding :
    (∀ b : List Nat,
      encodeExpr (.bytes b) = .obj [("@bytes", .str (base64Encode b))])
    ∧ base64Encode [1, 2, 3, 4] = "AQIDBA==" :=
  ⟨fun b => by simp [encodeExpr], by decide⟩

/-- C7: encoding Expr::Date(d) yields the JSON object with the single
reserved key "@date" holding the hyphen-joined 4-digit-year,
2-digit-month, 2-digit-day rendering of d, and the date 2001-05-31
renders as "2001-05-31". -/
theorem date_encoding :
    (∀ d : Date, encodeExpr (.date d) = .obj [("@date", .str d.format)])
    ∧ Date.format ⟨2001, 5, 31⟩ = "2001-05-31" :=
  ⟨fun d => by simp [encodeExpr], by decide⟩

/-- C8: encoding Expr::Timestamp(t) yields the JSON object with the
single reserved key "@ts" holding the RFC3339 rendering of t with an
explicit timezone offset, and the UTC instant 2019-05-26T16:20:00Z
renders as "2019-05-26T16:20:00+00:00". -/
theorem timestamp_encoding :
    (∀ t : Timestamp,
      encodeExpr (.timestamp t) = .obj [("@ts", .str t.toRfc3339)])
    ∧ Timestamp.toRfc3339 ⟨2019, 5, 26, 16, 20, 0, 0⟩ =
        "2019-05-26T16:20:00+00:00" :=
  ⟨fun t => by simp [encodeExpr], by decide⟩

/-- C9: encoding Expr::Ref(r) yields the JSON object with the single
reserved key "@ref" holding r's path, the `/`-joined chain of names from
the outermost parent to the leaf, and the reference named "foo" under
the collection constructor applied to "test" renders as
"classes/test/foo". -/
theorem ref_encoding :
    (∀ r : Ref, encodeExpr (.ref r) = .obj [("@ref", .str r.path)])
    ∧ (∀ n : String, Ref.path (.mk n none) = n)
    ∧ (∀ (n : String) (p : Ref),
        Ref.path (.mk n (some p)) = p.path ++ "/" ++ n)
    ∧ Ref.path (Ref.new "foo" (Ref.cls "test")) = "classes/test/foo" :=
  ⟨fun r => by simp [encodeExpr], fun n => by simp [Ref.path],
   fun n p => by simp [Ref.path], by decide⟩

/-- C10: the image of the generic-JSON conversion is restricted to the
scalar variants — whenever the conversion yields a constructed Expr, that
Expr is Null, Boolean, Int, UInt, Double or String. -/
theorem generic_conversion_scalar_image :
    ∀ (v : Value) (e : Expr),
      exprOfValue v = .ok e → e.isScalarVariant = true := by
  intro v e h
  cases v with
  | null =>
    injection h with h2
    rw [← h2]; rfl
  | bool b =>
    injection h with h2
    rw [← h2]; rfl
  | number n =>
    simp only [exprOfValue] at h
    split at h
    · injection h with h2; rw [← h2]; rfl
    · split at h <;> (injection h with h2; rw [← h2]; rfl)
  | str s =>
    injection h with h2
    rw [← h2]; rfl
  | arr xs => exact absurd h (by simp [exprOfValue])
  | obj kvs => exact absurd h (by simp [exprOfValue])

/-- Witness for C10: converting the null input yields the Null variant,
which is scalar. -/
theorem generic_conversion_scalar_image_witness :
    Expr.isScalarVariant .null = true :=
  generic_conversion_scalar_image .null .null rfl
